import Mathlib

/-!
Verification development for the StreamGuard camera-AI detection engine
(src/huggingface_space/app.py).

Shallow embedding conventions:
* Python floats are modelled as rationals (ℚ); IEEE rounding is not modelled.
* Python exceptions are modelled with Option: a function that can raise
  returns none exactly when the Python code raises.  The only fault the
  core logic can raise internally is ZeroDivisionError in calculate_iou
  (division by a zero denominator).
* The external collaborators (base64/image decoding, the YOLO detector,
  HTTP transport and auth) are out of scope: a request is modelled as the
  per-frame detector output (class name, box, confidence) together with
  each frame's pixel width/height, exactly the data the core logic reads.
* Human-readable message strings are modelled as structured values: each
  distinct format string of app.py is one constructor of Descr / Reason,
  carrying the values that the code interpolates into the string.
* Python dict-backed sets (set(...) of strings) are modelled as Finset,
  since set iteration order is unspecified.
-/

/- Batteries marks the arithmetic of Rat irreducible, which only hides the
definitions from elaborator-side evaluation; restore semireducibility so
that decide and rfl can evaluate the embedded program on concrete inputs.
The kernel is unaffected by reducibility attributes. -/
set_option allowUnsafeReducibility true in
attribute [semireducible] Rat.mul Rat.inv Rat.add Rat.sub Rat.ofScientific

namespace StreamGuard

/-- An axis-aligned box [x1, y1, x2, y2], as produced by box.xyxy in app.py. -/
structure Box where
  x1 : ℚ
  y1 : ℚ
  x2 : ℚ
  y2 : ℚ
deriving DecidableEq

/-- One detector output: class name, box, confidence
(the dict «class» / «box» / «conf» built in app.py lines 120-124,
except that here it is still unfiltered detector output). -/
structure Detection where
  cls : String
  box : Box
  conf : ℚ
deriving DecidableEq

/-- A zone polygon, as built by Polygon(payload.zone_points): the list of
normalized vertices. -/
structure Poly where
  pts : List (ℚ × ℚ)
deriving DecidableEq

/-- One input frame after decoding and detection: the pixel width/height
of the decoded image and the raw detector output for it.  This stands for
one base64 image of the request together with model(img) applied to it. -/
structure Frame where
  width : ℚ
  height : ℚ
  dets : List Detection
deriving DecidableEq

/-- The request payload (class DetectionRequest of app.py), with the images
replaced by their decoded/detected Frame data.  camera_name is omitted: the
code only prints it.  The three settings are Optional in pydantic and the
code re-defaults them when null, so they are Options here. -/
structure DetectionRequest where
  frames : List Frame
  zone_points : Option (List (ℚ × ℚ))
  person_iou_threshold : Option ℚ
  vehicle_iou_threshold : Option ℚ
  ignore_moving_persons : Option Bool
deriving DecidableEq

/-- Python int() on a float: truncation toward zero. -/
def pyInt (q : ℚ) : ℤ := if 0 ≤ q then ⌊q⌋ else ⌈q⌉

/-- Python format spec .2f: round to hundredths, ties to even. -/
def roundHalfEven (q : ℚ) : ℤ :=
  if q - ⌊q⌋ < 1 / 2 then ⌊q⌋
  else if 1 / 2 < q - ⌊q⌋ then ⌊q⌋ + 1
  else if ⌊q⌋ % 2 = 0 then ⌊q⌋ else ⌊q⌋ + 1

/-- The value printed by an f-string with format .2f. -/
def fmt2 (q : ℚ) : ℚ := roundHalfEven (q * 100) / 100

/-- One alert string appended to the alerts list in app.py, as a structured
value.  loitering stands for «Có người lảng vảng/đứng yên (p% > t%)» with
p = int(iou*100) and t = int(threshold*100); moving stands for
«Người đang di chuyển (IOU: v)» with v = iou formatted .2f; parked stands
for «cls đỗ trái phép/dừng lâu (p%)». -/
inductive Reason where
  | loitering (overlapPct thresholdPct : ℤ)
  | moving (overlap : ℚ)
  | parked (cls : String) (overlapPct : ℤ)
deriving DecidableEq

/-- The description field of an AnalysisResult, as a structured value.
Each constructor is one distinct format string of app.py:
noImages = «No images provided», noObjects = «Không phát hiện đối tượng»,
noObjectsInZone = «Không phát hiện đối tượng trong vùng»,
personUnclear = «Phát hiện người (Chuyển động không rõ)»,
vehiclesMoving = «Xe cộ di chuyển (Bỏ qua)»,
serverError = «Server Error: e», insufficientFrames s = «Phát hiện: ...
(Không đủ ảnh để phân tích hành vi)» listing the classes of s, and
alerts rs = the comma-join of the de-duplicated alert strings. -/
inductive Descr where
  | noImages
  | noObjects
  | noObjectsInZone
  | personUnclear
  | vehiclesMoving
  | serverError
  | insufficientFrames (classes : Finset String)
  | alerts (reasons : Finset Reason)
deriving DecidableEq

/-- The response model AnalysisResult of app.py. -/
structure AnalysisResult where
  shouldAlert : Bool
  description : Descr
  confidence : ℚ
  detectedObjects : Finset String
deriving DecidableEq

/-! ## Geometry utilities (app.py lines 57-80) -/

/-- interArea of calculate_iou: clamped intersection of the two boxes. -/
def iouInter (box1 box2 : Box) : ℚ :=
  max 0 (min box1.x2 box2.x2 - max box1.x1 box2.x1) *
    max 0 (min box1.y2 box2.y2 - max box1.y1 box2.y1)

/-- Signed area (x2-x1)*(y2-y1) of a box, box1Area/box2Area in calculate_iou. -/
def boxArea (b : Box) : ℚ := (b.x2 - b.x1) * (b.y2 - b.y1)

/-- The denominator of calculate_iou. -/
def iouDenom (box1 box2 : Box) : ℚ := boxArea box1 + boxArea box2 - iouInter box1 box2

/-- calculate_iou (app.py lines 57-69).  The Python division
interArea / float(box1Area + box2Area - interArea) raises
ZeroDivisionError exactly when the denominator is zero, modelled as none. -/
def calculate_iou (box1 box2 : Box) : Option ℚ :=
  if iouDenom box1 box2 = 0 then none
  else some (iouInter box1 box2 / iouDenom box1 box2)

/-- A well-formed box in the sense of the data-model invariant: x1<x2, y1<y2. -/
def WF (b : Box) : Prop := b.x1 < b.x2 ∧ b.y1 < b.y2

instance (b : Box) : Decidable (WF b) := by unfold WF; infer_instance

/-- The normalized centroid computed in is_inside_zone (app.py lines 76-77). -/
def centroidN (box : Box) (width height : ℚ) : ℚ × ℚ :=
  ((box.x1 + box.x2) / 2 / width, (box.y1 + box.y2) / 2 / height)

/-- The closed edge list of the polygon (each vertex joined to the next,
last joined back to the first). -/
def edges (poly : Poly) : List ((ℚ × ℚ) × (ℚ × ℚ)) :=
  match poly.pts with
  | [] => []
  | q :: qs => (q :: qs).zip (qs ++ [q])

/-- The point p lies on the closed segment from a to b. -/
def onSegment (p a b : ℚ × ℚ) : Prop :=
  (b.1 - a.1) * (p.2 - a.2) = (b.2 - a.2) * (p.1 - a.1) ∧
    min a.1 b.1 ≤ p.1 ∧ p.1 ≤ max a.1 b.1 ∧ min a.2 b.2 ≤ p.2 ∧ p.2 ≤ max a.2 b.2

instance (p a b : ℚ × ℚ) : Decidable (onSegment p a b) := by
  unfold onSegment; infer_instance

/-- The point lies on the polygon's boundary (on some edge). -/
def onBoundaryPoly (poly : Poly) (p : ℚ × ℚ) : Bool :=
  (edges poly).any (fun e => decide (onSegment p e.1 e.2))

/-- One step of the even-odd ray-crossing test: the horizontal ray from p
to the right crosses the edge e. -/
def rayCrosses (p : ℚ × ℚ) (e : (ℚ × ℚ) × (ℚ × ℚ)) : Bool :=
  (decide (p.2 < e.1.2) != decide (p.2 < e.2.2)) &&
    decide (p.1 < e.1.1 + (p.2 - e.1.2) * (e.2.1 - e.1.1) / (e.2.2 - e.1.2))

/-- Modelled from the spec: the external containment predicate
zone_poly.contains(point) used by is_inside_zone comes from the shapely
geometry library, which is not part of src/.  Its documented semantics is
strict-interior containment: a point is contained iff it lies in the
polygon's topological interior, so boundary points are never contained;
interior membership for points off the boundary is the even-odd
(ray-crossing) rule. -/
def polyContains (poly : Poly) (p : ℚ × ℚ) : Bool :=
  if onBoundaryPoly poly p then false
  else decide (((edges poly).countP (rayCrosses p)) % 2 = 1)

/-- is_inside_zone (app.py lines 71-80).  A missing or empty polygon means
everywhere is valid; otherwise the normalized centroid of the box is tested
for containment. -/
def is_inside_zone (box : Box) (zone : Option Poly) (width height : ℚ) : Bool :=
  match zone with
  | none => true
  | some poly =>
    if poly.pts.isEmpty then true
    else polyContains poly (centroidN box width height)

/-! ## Per-frame filter (app.py lines 105-125) -/

/-- The fixed allowed class list of app.py line 113. -/
def allowed : List String := ["person", "car", "motorcycle", "truck", "bus"]

/-- The vehicle class list of app.py line 205. -/
def vehicleClasses : List String := ["car", "motorcycle", "truck", "bus"]

/-- Python truthiness of zone_poly at app.py line 117: a shapely geometry is
truthy iff it is non-empty, and None is falsy. -/
def zoneTruthy : Option Poly → Bool
  | none => false
  | some poly => !poly.pts.isEmpty

/-- The per-frame filter loop of app.py lines 106-124: drop detections whose
class is not allowed, then drop detections outside a truthy zone; keep the
rest in order. -/
def frameFilter : List Detection → Option Poly → ℚ → ℚ → List Detection
  | [], _, _, _ => []
  | d :: rest, zone, w, h =>
    if d.cls ∈ allowed then
      if zoneTruthy zone && !(is_inside_zone d.box zone w h) then
        frameFilter rest zone w h
      else d :: frameFilter rest zone w h
    else frameFilter rest zone w h

/-- Zone preparation of app.py lines 92-94: a polygon is built only when
zone_points is truthy (non-None, non-empty) and has at least 3 points. -/
def mkZone : Option (List (ℚ × ℚ)) → Option Poly
  | some pts => if 3 ≤ pts.length then some ⟨pts⟩ else none
  | none => none

/-! ## Frame chainer (app.py lines 167-187) -/

/-- The inner matching loop (app.py lines 175-178 and 182-185): scan the
frame in order and return the first detection of the given class whose IoU
with the given box exceeds 0.1; none of the outer Option means the scan
raised (ZeroDivisionError inside calculate_iou), some none means the scan
finished without a match. -/
def findMatch (cls : String) (box : Box) : List Detection → Option (Option Detection)
  | [] => some none
  | d :: rest =>
    if d.cls = cls then
      match calculate_iou box d.box with
      | none => none
      | some iou => if iou > 1 / 10 then some (some d) else findMatch cls box rest
    else findMatch cls box rest

/-- The per-anchor chain construction (app.py lines 173-185): match_f2 is
searched in frame 1 from the anchor's box, and match_f3 is searched in
frame 2 from match_f2's box only when match_f2 was found. -/
def chainOf (bet : Detection) (f1 f2 : List Detection) :
    Option (Option Detection × Option Detection) :=
  match findMatch bet.cls bet.box f1 with
  | none => none
  | some none => some (none, none)
  | some (some d2) =>
    match findMatch bet.cls d2.box f2 with
    | none => none
    | some m3 => some (some d2, m3)

/-! ## Rule evaluator (app.py lines 187-211) -/

/-- The RULES block of app.py lines 192-211, for one completed chain of
class cls with head-tail IoU iou13: the list of alert reasons it appends
(empty or a single reason).  The thresholds and the flag re-default to
0.6 / 0.9 / true when the payload field is None (lines 195-196, 206). -/
def rules (pt vt : Option ℚ) (ig : Option Bool) (cls : String) (iou13 : ℚ) : List Reason :=
  if cls = "person" then
    if iou13 > pt.getD (3 / 5) then
      [Reason.loitering (pyInt (iou13 * 100)) (pyInt (pt.getD (3 / 5) * 100))]
    else if ig.getD true = false then [Reason.moving (fmt2 iou13)]
    else []
  else if cls ∈ vehicleClasses then
    if iou13 > vt.getD (9 / 10) then [Reason.parked cls (pyInt (iou13 * 100))]
    else []
  else []

/-- One iteration of the anchor loop (app.py lines 167-211) restricted to
its alert output: build the chain for the anchor and, when it completed,
compute iou_1_3 and apply the rules. -/
def anchorStep (pt vt : Option ℚ) (ig : Option Bool) (f1 f2 : List Detection)
    (bet : Detection) : Option (List Reason) :=
  match chainOf bet f1 f2 with
  | none => none
  | some (some _, some d3) =>
    match calculate_iou bet.box d3.box with
    | none => none
    | some iou13 => some (rules pt vt ig bet.cls iou13)
  | some _ => some []

/-- The whole anchor loop (app.py lines 167-211): the concatenated alert
reasons in anchor order, and the detected_types set built from the anchors'
classes.  none when any iteration raised. -/
def processAnchors (pt vt : Option ℚ) (ig : Option Bool) (f1 f2 : List Detection) :
    List Detection → Option (List Reason × Finset String)
  | [] => some ([], ∅)
  | bet :: rest =>
    match anchorStep pt vt ig f1 f2 bet with
    | none => none
    | some rs =>
      match processAnchors pt vt ig f1 f2 rest with
      | none => none
      | some (rs2, ts) => some (rs ++ rs2, insert bet.cls ts)

/-! ## Decision synthesizer (app.py lines 84-238) -/

/-- The filtered per-frame detection lists frames_detections. -/
def filteredFrames (p : DetectionRequest) : List (List Detection) :=
  p.frames.map (fun f => frameFilter f.dets (mkZone p.zone_points) f.width f.height)

/-- frames_detections[-1] if frames_detections else [] (app.py line 131). -/
def lastFiltered (p : DetectionRequest) : List Detection :=
  ((filteredFrames p).getLast?).getD []

/-- frames_detections[i] for the indices 0, 1, 2 used by the chainer; the
code only reads them after checking that at least 3 frames exist. -/
def frameAt (p : DetectionRequest) (i : ℕ) : List Detection :=
  (filteredFrames p).getD i []

/-- all_objs (app.py line 147): every filtered detection of every frame. -/
def allObjs (p : DetectionRequest) : List Detection :=
  (filteredFrames p).flatten

/-- has_person (app.py line 152). -/
def hasPerson (p : DetectionRequest) : Bool :=
  (allObjs p).any (fun d => d.cls == "person")

/-- max_conf after the loop of app.py lines 164-165: maximum confidence over
all filtered detections, starting from 0. -/
def maxConfAll (p : DetectionRequest) : ℚ :=
  (allObjs p).foldl (fun m d => max m d.conf) 0

/-- The distinct classes of a detection list as a set
(list(set(...)) over class names in app.py). -/
def classSet (l : List Detection) : Finset String :=
  (l.map (fun d => d.cls)).toFinset

/-- The anchor loop applied as the code applies it, to frames 1, 2 and the
anchors of frame 0. -/
def chainResults (p : DetectionRequest) : Option (List Reason × Finset String) :=
  processAnchors p.person_iou_threshold p.vehicle_iou_threshold p.ignore_moving_persons
    (frameAt p 1) (frameAt p 2) (frameAt p 0)

/-- The body of the detect handler inside the try block (app.py lines
85-234): none when the body raises. -/
def detectCore (p : DetectionRequest) : Option AnalysisResult :=
  if p.frames.length = 0 then
    some ⟨false, Descr.noImages, 0, ∅⟩
  else if p.frames.length < 3 then
    match lastFiltered p with
    | [] => some ⟨false, Descr.noObjects, 0, ∅⟩
    | d :: ds =>
      some ⟨true, Descr.insufficientFrames (classSet (d :: ds)), d.conf * 100,
        classSet (d :: ds)⟩
  else if allObjs p = [] then
    some ⟨false, Descr.noObjectsInZone, 0, ∅⟩
  else
    match chainResults p with
    | none => none
    | some (alerts, types) =>
      if alerts = [] then
        if hasPerson p then
          some ⟨true, Descr.personUnclear, maxConfAll p * 100, types⟩
        else
          some ⟨false, Descr.vehiclesMoving, 0, types⟩
      else
        some ⟨true, Descr.alerts alerts.toFinset, maxConfAll p * 100, types⟩

/-- The except-branch result of app.py lines 236-238. -/
def serverErrorResult : AnalysisResult := ⟨false, Descr.serverError, 0, ∅⟩

/-- The detect handler (app.py lines 84-238): the try body, with any raised
fault converted at the boundary into the non-alerting serverErrorResult. -/
def detect (p : DetectionRequest) : AnalysisResult :=
  (detectCore p).getD serverErrorResult

/-! ## Concrete example requests used by counterexamples and witnesses -/

/-- A zero-area box. -/
def zbox : Box := ⟨0, 0, 0, 0⟩

/-- One frame, two person detections with different confidences. -/
def exFewFrames : DetectionRequest :=
  ⟨[⟨100, 100, [⟨"person", ⟨0, 0, 10, 10⟩, 1 / 2⟩, ⟨"person", ⟨20, 20, 30, 30⟩, 9 / 10⟩]⟩],
    none, some (3 / 5), some (9 / 10), some true⟩

/-- Three frames with one car that moves so far that no chain forms. -/
def exMovingCar : DetectionRequest :=
  ⟨[⟨100, 100, [⟨"car", ⟨0, 0, 10, 10⟩, 7 / 10⟩]⟩,
    ⟨100, 100, [⟨"car", ⟨20, 20, 30, 30⟩, 7 / 10⟩]⟩,
    ⟨100, 100, [⟨"car", ⟨40, 40, 50, 50⟩, 7 / 10⟩]⟩],
    none, some (3 / 5), some (9 / 10), some true⟩

/-- Three frames: a car in frame 0, a person only in frame 1, nothing in
frame 2; no chain completes, so no alert reason is produced. -/
def exMixed : DetectionRequest :=
  ⟨[⟨100, 100, [⟨"car", ⟨0, 0, 10, 10⟩, 1 / 2⟩]⟩,
    ⟨100, 100, [⟨"person", ⟨50, 50, 60, 60⟩, 9 / 10⟩]⟩,
    ⟨100, 100, []⟩],
    none, some (3 / 5), some (9 / 10), some true⟩

/-- Three frames with one person standing still at the same box. -/
def exStationary : DetectionRequest :=
  ⟨[⟨100, 100, [⟨"person", ⟨10, 10, 50, 50⟩, 4 / 5⟩]⟩,
    ⟨100, 100, [⟨"person", ⟨10, 10, 50, 50⟩, 4 / 5⟩]⟩,
    ⟨100, 100, [⟨"person", ⟨10, 10, 50, 50⟩, 4 / 5⟩]⟩],
    none, some (3 / 5), some (9 / 10), some true⟩

/-- Three frames whose frame-0 and frame-1 person detections have zero-area
boxes, so the chain search divides by zero. -/
def exZeroArea : DetectionRequest :=
  ⟨[⟨100, 100, [⟨"person", zbox, 1⟩]⟩,
    ⟨100, 100, [⟨"person", zbox, 1⟩]⟩,
    ⟨100, 100, []⟩],
    none, some (3 / 5), some (9 / 10), some true⟩

/-- A triangular zone with a vertex at the origin and legs along the axes. -/
def exTriangle : Poly := ⟨[(0, 0), (1, 0), (0, 1)]⟩

/-- A box whose normalized centroid (1/2, 0) lies on the bottom edge of
exTriangle when the frame is 100 x 100. -/
def exBoundaryBox : Box := ⟨40, -10, 60, 10⟩

/-! ## Spec-side definitions, for refinement statements -/

/-- The predicate the spec describes for a chain link: same class and IoU
above the fixed 0.1 threshold. -/
def linkPred (cls : String) (box : Box) (d : Detection) : Bool :=
  d.cls == cls && decide ((calculate_iou box d.box).getD 0 > 1 / 10)

/-- Spec-side selection: the first detection of the frame, in order, of the
given class whose overlap with the given box exceeds 0.1
("Search frame 1, in order, for the first Detection of the same class with
overlapRatio(d0.box, candidate.box) > 0.1"). -/
def specFirstMatch (cls : String) (box : Box) (dets : List Detection) : Option Detection :=
  dets.find? (linkPred cls box)

/-- Spec-side chain: d1 is the first qualifying match of d0 in frame 1, and
d2 the first qualifying match of d1 in frame 2, searched only when d1 exists. -/
def specChain (bet : Detection) (f1 f2 : List Detection) :
    Option Detection × Option Detection :=
  match specFirstMatch bet.cls bet.box f1 with
  | none => (none, none)
  | some d1 => (some d1, specFirstMatch bet.cls d1.box f2)

/-! ## Helper lemmas -/

/-- The handler returns the try-body result when no fault was raised. -/
lemma detect_eq_core (p : DetectionRequest) (r : AnalysisResult)
    (h : detectCore p = some r) : detect p = r := by
  simp [detect, h]

/-- The handler returns the except-branch result when the body raised. -/
lemma detect_of_none (p : DetectionRequest) (h : detectCore p = none) :
    detect p = serverErrorResult := by
  simp [detect, h]

/-- Branch lemma: fewer than 3 (but at least 1) frames. -/
lemma detectCore_few (p : DetectionRequest) (h0 : ¬ p.frames.length = 0)
    (hlt : p.frames.length < 3) :
    detectCore p = some (match lastFiltered p with
      | [] => ⟨false, Descr.noObjects, 0, ∅⟩
      | d :: ds =>
        ⟨true, Descr.insufficientFrames (classSet (d :: ds)), d.conf * 100,
          classSet (d :: ds)⟩) := by
  simp only [detectCore, if_neg h0, if_pos hlt]
  cases lastFiltered p <;> rfl

/-- Branch lemma: at least 3 frames but nothing survived the filter. -/
lemma detectCore_noObjs (p : DetectionRequest) (h3 : 3 ≤ p.frames.length)
    (he : allObjs p = []) :
    detectCore p = some ⟨false, Descr.noObjectsInZone, 0, ∅⟩ := by
  have h0 : ¬ p.frames.length = 0 := by omega
  have hlt : ¬ p.frames.length < 3 := by omega
  simp only [detectCore, if_neg h0, if_neg hlt, if_pos he]

/-- Branch lemma: the anchor loop raised. -/
lemma detectCore_err (p : DetectionRequest) (h3 : 3 ≤ p.frames.length)
    (hne : ¬ allObjs p = []) (hch : chainResults p = none) :
    detectCore p = none := by
  have h0 : ¬ p.frames.length = 0 := by omega
  have hlt : ¬ p.frames.length < 3 := by omega
  simp only [detectCore, if_neg h0, if_neg hlt, if_neg hne, hch]

/-- Branch lemma: the main path, with the anchor loop's alerts and types. -/
lemma detectCore_main (p : DetectionRequest) (al : List Reason) (ts : Finset String)
    (h3 : 3 ≤ p.frames.length) (hne : ¬ allObjs p = [])
    (hch : chainResults p = some (al, ts)) :
    detectCore p = some (if al = [] then
        (if hasPerson p then ⟨true, Descr.personUnclear, maxConfAll p * 100, ts⟩
         else ⟨false, Descr.vehiclesMoving, 0, ts⟩)
      else ⟨true, Descr.alerts al.toFinset, maxConfAll p * 100, ts⟩) := by
  have h0 : ¬ p.frames.length = 0 := by omega
  have hlt : ¬ p.frames.length < 3 := by omega
  simp only [detectCore, if_neg h0, if_neg hlt, if_neg hne, hch]
  split_ifs <;> rfl

/-- A well-formed box has positive area. -/
lemma boxArea_pos (b : Box) (h : WF b) : 0 < boxArea b :=
  mul_pos (sub_pos.mpr h.1) (sub_pos.mpr h.2)

/-- The clamped intersection is never larger than the first box's area,
provided that box is well-formed. -/
lemma iouInter_le_left (b1 b2 : Box) (h : WF b1) : iouInter b1 b2 ≤ boxArea b1 := by
  unfold iouInter boxArea
  have hx : max 0 (min b1.x2 b2.x2 - max b1.x1 b2.x1) ≤ b1.x2 - b1.x1 := by
    apply max_le
    · linarith [h.1]
    · have := min_le_left b1.x2 b2.x2
      have := le_max_left b1.x1 b2.x1
      linarith
  have hy : max 0 (min b1.y2 b2.y2 - max b1.y1 b2.y1) ≤ b1.y2 - b1.y1 := by
    apply max_le
    · linarith [h.2]
    · have := min_le_left b1.y2 b2.y2
      have := le_max_left b1.y1 b2.y1
      linarith
  exact mul_le_mul hx hy (le_max_left 0 _) (by linarith [h.1])

/-- With two well-formed boxes the IoU denominator is positive, so the
division in calculate_iou cannot raise. -/
lemma iouDenom_pos (b1 b2 : Box) (h1 : WF b1) (h2 : WF b2) : 0 < iouDenom b1 b2 := by
  have := iouInter_le_left b1 b2 h1
  have := boxArea_pos b2 h2
  unfold iouDenom
  linarith

/-- calculate_iou returns a value on well-formed boxes. -/
lemma calculate_iou_wf (b1 b2 : Box) (h1 : WF b1) (h2 : WF b2) :
    calculate_iou b1 b2 = some (iouInter b1 b2 / iouDenom b1 b2) := by
  have := iouDenom_pos b1 b2 h1 h2
  simp [calculate_iou, ne_of_gt this]

/-- Unfolding lemma for the matching loop on a non-empty frame. -/
lemma findMatch_cons (cls : String) (box : Box) (d : Detection) (rest : List Detection) :
    findMatch cls box (d :: rest) =
      if d.cls = cls then
        match calculate_iou box d.box with
        | none => none
        | some iou => if iou > 1 / 10 then some (some d) else findMatch cls box rest
      else findMatch cls box rest := rfl

/-- Unfolding lemma for the spec-side search, positive head. -/
lemma specFirstMatch_cons_pos (cls : String) (box : Box) (d : Detection)
    (rest : List Detection) (h : linkPred cls box d = true) :
    specFirstMatch cls box (d :: rest) = some d :=
  List.find?_cons_of_pos rest h

/-- Unfolding lemma for the spec-side search, negative head. -/
lemma specFirstMatch_cons_neg (cls : String) (box : Box) (d : Detection)
    (rest : List Detection) (h : linkPred cls box d = false) :
    specFirstMatch cls box (d :: rest) = specFirstMatch cls box rest :=
  List.find?_cons_of_neg rest (by simp [h])

/-- On a frame of well-formed boxes, the code's matching loop raises nothing
and selects exactly the spec's first qualifying detection. -/
lemma findMatch_eq_spec (cls : String) (box : Box) (dets : List Detection)
    (hb : WF box) (hd : ∀ d ∈ dets, WF d.box) :
    findMatch cls box dets = some (specFirstMatch cls box dets) := by
  induction dets with
  | nil => rfl
  | cons d rest ih =>
    have hdwf : WF d.box := hd d (List.mem_cons_self d rest)
    have hrest : ∀ x ∈ rest, WF x.box := fun x hx => hd x (List.mem_cons_of_mem d hx)
    have hiou := calculate_iou_wf box d.box hb hdwf
    by_cases hcls : d.cls = cls
    · have hstep : findMatch cls box (d :: rest) =
          if iouInter box d.box / iouDenom box d.box > 1 / 10 then some (some d)
          else findMatch cls box rest := by
        rw [findMatch_cons, if_pos hcls, hiou]
      by_cases hgt : iouInter box d.box / iouDenom box d.box > 1 / 10
      · have hp : linkPred cls box d = true := by
          unfold linkPred
          rw [hiou, hcls]
          simp only [Option.getD_some, beq_self_eq_true, Bool.true_and,
            decide_eq_true_eq]
          exact hgt
        rw [hstep, if_pos hgt, specFirstMatch_cons_pos cls box d rest hp]
      · have hp : linkPred cls box d = false := by
          unfold linkPred
          rw [hiou, hcls]
          simp only [Option.getD_some, beq_self_eq_true, Bool.true_and,
            decide_eq_false_iff_not]
          exact hgt
        rw [hstep, if_neg hgt, specFirstMatch_cons_neg cls box d rest hp]
        exact ih hrest
    · have hp : linkPred cls box d = false := by
        unfold linkPred
        have : (d.cls == cls) = false := beq_eq_false_iff_ne.mpr hcls
        rw [this, Bool.false_and]
      have hstep : findMatch cls box (d :: rest) = findMatch cls box rest := by
        rw [findMatch_cons, if_neg hcls]
      rw [hstep, specFirstMatch_cons_neg cls box d rest hp]
      exact ih hrest

/-- A detection selected by the spec-side search has the searched class. -/
lemma specFirstMatch_cls (cls : String) (box : Box) (dets : List Detection)
    (d : Detection) (h : specFirstMatch cls box dets = some d) : d.cls = cls := by
  have hfind := List.find?_some h
  simp only [linkPred, Bool.and_eq_true, beq_iff_eq] at hfind
  exact hfind.1

/-- A detection selected by the spec-side search belongs to the frame. -/
lemma specFirstMatch_mem (cls : String) (box : Box) (dets : List Detection)
    (d : Detection) (h : specFirstMatch cls box dets = some d) : d ∈ dets :=
  List.mem_of_find?_eq_some h

/-- The detected_types set built by the anchor loop is exactly the set of
anchor classes. -/
lemma processAnchors_classes (pt vt : Option ℚ) (ig : Option Bool)
    (f1 f2 : List Detection) (l : List Detection) (rs : List Reason)
    (ts : Finset String) (h : processAnchors pt vt ig f1 f2 l = some (rs, ts)) :
    ts = classSet l := by
  induction l generalizing rs ts with
  | nil =>
    simp only [processAnchors, Option.some.injEq, Prod.mk.injEq] at h
    simp [classSet, ← h.2]
  | cons bet rest ih =>
    simp only [processAnchors] at h
    cases ha : anchorStep pt vt ig f1 f2 bet with
    | none => rw [ha] at h; exact absurd h (by simp)
    | some rs1 =>
      rw [ha] at h
      cases hr : processAnchors pt vt ig f1 f2 rest with
      | none => rw [hr] at h; exact absurd h (by simp)
      | some pr =>
        obtain ⟨rs2, ts2⟩ := pr
        rw [hr] at h
        simp only [Option.some.injEq, Prod.mk.injEq] at h
        rw [← h.2, ih rs2 ts2 hr]
        simp [classSet]

/-- A non-truthy zone never excludes a centroid. -/
lemma is_inside_zone_of_not_truthy (box : Box) (zone : Option Poly) (w h : ℚ)
    (hz : zoneTruthy zone = false) : is_inside_zone box zone w h = true := by
  cases zone with
  | none => rfl
  | some poly =>
    have hie : poly.pts.isEmpty = true := by simpa [zoneTruthy] using hz
    simp [is_inside_zone, hie]

/-- The filter loop is List.filter of the survival predicate. -/
lemma frameFilter_eq_filter (dets : List Detection) (zone : Option Poly) (w h : ℚ) :
    frameFilter dets zone w h =
      dets.filter (fun d => decide (d.cls ∈ allowed) &&
        (!(zoneTruthy zone) || is_inside_zone d.box zone w h)) := by
  induction dets with
  | nil => rfl
  | cons d rest ih =>
    by_cases hmem : d.cls ∈ allowed
    · cases hin : is_inside_zone d.box zone w h <;> cases hzt : zoneTruthy zone <;>
        simp [frameFilter, hmem, hin, hzt, List.filter_cons, ih]
    · simp [frameFilter, hmem, List.filter_cons, ih]

/-! ## Claim theorems -/

/-- C7: for all well-formed boxes A and B (x1 less than x2, y1 less than
y2), the overlap ratio of A and B equals the overlap ratio of B and A. -/
theorem iou_symm (A B : Box) (hA : WF A) (hB : WF B) :
    calculate_iou A B = calculate_iou B A := by
  have h1 : iouInter A B = iouInter B A := by
    unfold iouInter
    rw [min_comm A.x2 B.x2, min_comm A.y2 B.y2, max_comm A.x1 B.x1, max_comm A.y1 B.y1]
  have h2 : iouDenom A B = iouDenom B A := by
    unfold iouDenom
    rw [h1, add_comm]
  unfold calculate_iou
  rw [h1, h2]

/-- Witness for C7 at two concrete overlapping boxes. -/
theorem iou_symm_witness :
    WF ⟨0, 0, 10, 10⟩ ∧ WF ⟨5, 5, 15, 15⟩ ∧
    calculate_iou ⟨0, 0, 10, 10⟩ ⟨5, 5, 15, 15⟩ =
      calculate_iou ⟨5, 5, 15, 15⟩ ⟨0, 0, 10, 10⟩ :=
  ⟨by decide, by decide, iou_symm ⟨0, 0, 10, 10⟩ ⟨5, 5, 15, 15⟩ (by decide) (by decide)⟩

/-- C2 counterexample: for two zero-area boxes the overlap computation is
not treated as zero overlap (it raises instead of returning 0), and the
chain search on such a candidate propagates the fault instead of treating
the candidate as no match. -/
theorem zero_area_zero_overlap_cex :
    calculate_iou zbox zbox = none ∧ calculate_iou zbox zbox ≠ some 0 ∧
    findMatch "person" zbox [⟨"person", zbox, 1⟩] = none ∧
    findMatch "person" zbox [⟨"person", zbox, 1⟩] ≠ some none := by decide

/-- C2 amended: for every pair of zero-area boxes the overlap computation
raises a division-by-zero fault (yields no value), and the chain search
aborts with that fault when it reaches such a same-class candidate, rather
than treating it as zero overlap / no match. -/
theorem zero_area_iou_faults (b1 b2 : Box) (h1 : boxArea b1 = 0) (h2 : boxArea b2 = 0) :
    calculate_iou b1 b2 = none ∧
    ∀ cls conf rest, findMatch cls b1 (⟨cls, b2, conf⟩ :: rest) = none := by
  have hinter : iouInter b1 b2 = 0 := by
    unfold boxArea at h1
    rcases mul_eq_zero.mp h1 with hx | hy
    · have hle : min b1.x2 b2.x2 - max b1.x1 b2.x1 ≤ 0 := by
        have ha := min_le_left b1.x2 b2.x2
        have hb := le_max_left b1.x1 b2.x1
        linarith
      unfold iouInter
      rw [max_eq_left hle, zero_mul]
    · have hle : min b1.y2 b2.y2 - max b1.y1 b2.y1 ≤ 0 := by
        have ha := min_le_left b1.y2 b2.y2
        have hb := le_max_left b1.y1 b2.y1
        linarith
      unfold iouInter
      rw [max_eq_left hle, mul_zero]
  have hden : iouDenom b1 b2 = 0 := by
    unfold iouDenom
    rw [hinter, h1, h2]
    ring
  have hnone : calculate_iou b1 b2 = none := by
    unfold calculate_iou
    rw [if_pos hden]
  refine ⟨hnone, ?_⟩
  intro cls conf rest
  rw [findMatch_cons, if_pos rfl, hnone]

/-- Witness for C2's amended statement at two concrete zero-area boxes. -/
theorem zero_area_iou_faults_witness :
    boxArea zbox = 0 ∧ calculate_iou zbox zbox = none ∧
    findMatch "car" zbox [⟨"car", zbox, 1⟩] = none :=
  ⟨by decide, (zero_area_iou_faults zbox zbox (by decide) (by decide)).1,
    (zero_area_iou_faults zbox zbox (by decide) (by decide)).2 "car" 1 []⟩

/-- C4: for every anchor detection d0 of frame 0 (over well-formed boxes),
the chainer selects as d1 the first detection of frame 1, in order, of the
same class with overlap above 0.1; when d1 exists it selects as d2 the
first detection of frame 2, in order, of the same class with overlap with
d1 above 0.1; and a completed chain never mixes classes. -/
theorem chain_greedy_first_match (bet : Detection) (f1 f2 : List Detection)
    (hb : WF bet.box) (h1 : ∀ d ∈ f1, WF d.box) (h2 : ∀ d ∈ f2, WF d.box) :
    chainOf bet f1 f2 = some (specChain bet f1 f2) ∧
    ∀ d1 d2, chainOf bet f1 f2 = some (some d1, some d2) →
      d1.cls = bet.cls ∧ d2.cls = bet.cls := by
  have hm1 := findMatch_eq_spec bet.cls bet.box f1 hb h1
  have hmain : chainOf bet f1 f2 = some (specChain bet f1 f2) := by
    unfold chainOf specChain
    rw [hm1]
    cases hs : specFirstMatch bet.cls bet.box f1 with
    | none => rfl
    | some d1 =>
      have hd1 : WF d1.box := h1 d1 (specFirstMatch_mem bet.cls bet.box f1 d1 hs)
      show (match findMatch bet.cls d1.box f2 with
        | none => none
        | some m3 => some (some d1, m3)) =
          some (some d1, specFirstMatch bet.cls d1.box f2)
      rw [findMatch_eq_spec bet.cls d1.box f2 hd1 h2]
  refine ⟨hmain, ?_⟩
  intro d1 d2 hch
  rw [hmain] at hch
  unfold specChain at hch
  cases hs : specFirstMatch bet.cls bet.box f1 with
  | none => rw [hs] at hch; exact absurd hch (by simp)
  | some e1 =>
    rw [hs] at hch
    simp only [Option.some.injEq, Prod.mk.injEq] at hch
    obtain ⟨he1, he2⟩ := hch
    exact ⟨he1 ▸ specFirstMatch_cls bet.cls bet.box f1 e1 hs,
      specFirstMatch_cls bet.cls e1.box f2 d2 he2⟩

/-- Witness for C4 at a concrete anchor and two concrete frames. -/
theorem chain_greedy_first_match_witness :
    chainOf ⟨"person", ⟨10, 10, 50, 50⟩, 4 / 5⟩
        [⟨"person", ⟨12, 12, 52, 52⟩, 4 / 5⟩] [⟨"person", ⟨14, 14, 54, 54⟩, 4 / 5⟩] =
      some (specChain ⟨"person", ⟨10, 10, 50, 50⟩, 4 / 5⟩
        [⟨"person", ⟨12, 12, 52, 52⟩, 4 / 5⟩] [⟨"person", ⟨14, 14, 54, 54⟩, 4 / 5⟩]) :=
  (chain_greedy_first_match ⟨"person", ⟨10, 10, 50, 50⟩, 4 / 5⟩
    [⟨"person", ⟨12, 12, 52, 52⟩, 4 / 5⟩] [⟨"person", ⟨14, 14, 54, 54⟩, 4 / 5⟩]
    (by decide) (by decide) (by decide)).1

/-- C5: for every completed Person-class chain, writing ht for the IoU of
the anchor box and the frame-2 box (the head-tail overlap): above the
person threshold a loitering reason embedding the overlap and threshold
percentages is emitted; otherwise, when ignoreMovingPersons is false, a
moving reason is emitted; otherwise no reason is emitted for that chain. -/
theorem person_chain_rules (pt vt : Option ℚ) (ig : Option Bool)
    (f1 f2 : List Detection) (bet d1 d2 : Detection) (ht : ℚ)
    (hcls : bet.cls = "person")
    (hchain : chainOf bet f1 f2 = some (some d1, some d2))
    (hiou : calculate_iou bet.box d2.box = some ht) :
    anchorStep pt vt ig f1 f2 bet =
      some (if ht > pt.getD (3 / 5) then
          [Reason.loitering (pyInt (ht * 100)) (pyInt (pt.getD (3 / 5) * 100))]
        else if ig.getD true = false then [Reason.moving (fmt2 ht)]
        else []) := by
  have hstep : anchorStep pt vt ig f1 f2 bet =
      match calculate_iou bet.box d2.box with
      | none => none
      | some iou13 => some (rules pt vt ig bet.cls iou13) := by
    unfold anchorStep
    rw [hchain]
  rw [hstep, hiou]
  show some (rules pt vt ig bet.cls ht) = _
  rw [hcls]
  rfl

/-- Witness for C5: a stationary person chain yields the loitering reason
with the overlap and threshold percentages. -/
theorem person_chain_rules_witness :
    anchorStep (some (3 / 5)) (some (9 / 10)) (some true)
      [⟨"person", ⟨10, 10, 50, 50⟩, 4 / 5⟩] [⟨"person", ⟨10, 10, 50, 50⟩, 4 / 5⟩]
      ⟨"person", ⟨10, 10, 50, 50⟩, 4 / 5⟩ = some [Reason.loitering 100 60] :=
  (person_chain_rules (some (3 / 5)) (some (9 / 10)) (some true)
    [⟨"person", ⟨10, 10, 50, 50⟩, 4 / 5⟩] [⟨"person", ⟨10, 10, 50, 50⟩, 4 / 5⟩]
    ⟨"person", ⟨10, 10, 50, 50⟩, 4 / 5⟩ ⟨"person", ⟨10, 10, 50, 50⟩, 4 / 5⟩
    ⟨"person", ⟨10, 10, 50, 50⟩, 4 / 5⟩ 1 rfl (by decide) (by decide)).trans (by decide)

/-- C6: the per-frame filter keeps a detection iff its class is in the
allowed set and the region is absent or the centroid lies inside it; the
output is List.filter of that predicate over the input, so the input order
is preserved, and the filter is a pure function of its inputs. -/
theorem frame_filter_spec (dets : List Detection) (zone : Option Poly) (w h : ℚ) :
    frameFilter dets zone w h =
      dets.filter (fun d => decide (d.cls ∈ allowed) &&
        (!(zoneTruthy zone) || is_inside_zone d.box zone w h)) ∧
    ∀ d : Detection, d ∈ frameFilter dets zone w h ↔
      d ∈ dets ∧ d.cls ∈ allowed ∧
        (zone = none ∨ is_inside_zone d.box zone w h = true) := by
  refine ⟨frameFilter_eq_filter dets zone w h, ?_⟩
  intro d
  rw [frameFilter_eq_filter dets zone w h, List.mem_filter]
  constructor
  · rintro ⟨hd, hp⟩
    simp only [Bool.and_eq_true, decide_eq_true_eq, Bool.or_eq_true,
      Bool.not_eq_true'] at hp
    refine ⟨hd, hp.1, ?_⟩
    rcases hp.2 with hz | hi
    · exact Or.inr (is_inside_zone_of_not_truthy d.box zone w h hz)
    · exact Or.inr hi
  · rintro ⟨hd, hmem, hz⟩
    refine ⟨hd, ?_⟩
    simp only [Bool.and_eq_true, decide_eq_true_eq, Bool.or_eq_true,
      Bool.not_eq_true']
    refine ⟨hmem, ?_⟩
    rcases hz with rfl | hi
    · exact Or.inl rfl
    · exact Or.inr hi

/-- C8: whenever the evaluation body raises, the fault is converted at the
boundary into a non-alerting Decision carrying the diagnostic description;
detect itself is a total function, so a Decision is always returned. -/
theorem fault_boundary (p : DetectionRequest) (h : detectCore p = none) :
    detect p = serverErrorResult ∧ (detect p).shouldAlert = false ∧
    (detect p).description = Descr.serverError := by
  have hd := detect_of_none p h
  exact ⟨hd, by rw [hd]; rfl, by rw [hd]; rfl⟩

/-- Witness for C8: a request whose zero-area boxes make the chain search
divide by zero produces the non-alerting server-error Decision. -/
theorem fault_boundary_witness :
    detectCore exZeroArea = none ∧ detect exZeroArea = serverErrorResult :=
  ⟨by decide, (fault_boundary exZeroArea (by decide)).1⟩

/-- C9: detect is deterministic: identical requests give identical
Decisions.  The embedding is a pure function because the code keeps all its
accumulators local to one request and no module state is mutated. -/
theorem detect_deterministic (p q : DetectionRequest) (h : p = q) :
    detect p = detect q := congrArg detect h

/-- Witness for C9 at a concrete request. -/
theorem detect_deterministic_witness : detect exStationary = detect exStationary :=
  detect_deterministic exStationary exStationary rfl

/-- C10: for every configured region (at least 3 vertices) and every box
whose normalized centroid lies exactly on the region boundary, the
containment test returns false (strict-interior containment), and such a
detection is filtered out. -/
theorem boundary_centroid_excluded (poly : Poly) (box : Box) (w h : ℚ)
    (hcfg : 3 ≤ poly.pts.length)
    (hb : onBoundaryPoly poly (centroidN box w h) = true) :
    is_inside_zone box (some poly) w h = false ∧
    ∀ cls conf, frameFilter [⟨cls, box, conf⟩] (some poly) w h = [] := by
  have hne : poly.pts ≠ [] := by
    intro hnil
    rw [hnil] at hcfg
    simp at hcfg
  have hie : poly.pts.isEmpty = false := by
    simpa [List.isEmpty_iff] using hne
  have hinside : is_inside_zone box (some poly) w h = false := by
    show (if poly.pts.isEmpty = true then true
      else polyContains poly (centroidN box w h)) = false
    rw [hie]
    simp only [Bool.false_eq_true, if_false]
    unfold polyContains
    rw [if_pos hb]
  refine ⟨hinside, ?_⟩
  intro cls conf
  by_cases hmem : cls ∈ allowed
  · have hzt : zoneTruthy (some poly) = true := by simp [zoneTruthy, hie]
    simp [frameFilter, hmem, hzt, hinside]
  · simp [frameFilter, hmem]

/-- Witness for C10: the centroid of a concrete box lies on the bottom edge
of a concrete triangular region and the detection is dropped. -/
theorem boundary_centroid_excluded_witness :
    is_inside_zone exBoundaryBox (some exTriangle) 100 100 = false ∧
    frameFilter [⟨"person", exBoundaryBox, 1⟩] (some exTriangle) 100 100 = [] :=
  ⟨(boundary_centroid_excluded exTriangle exBoundaryBox 100 100
      (by decide) (by decide)).1,
    (boundary_centroid_excluded exTriangle exBoundaryBox 100 100
      (by decide) (by decide)).2 "person" 1⟩

/-- C1 counterexample: a 1-frame alerting Decision reports the first
detection's confidence (50), not 100 times the maximum (90); and a 3-frame
no-alert Decision with objects found reports 0, not 100 times the maximum. -/
theorem confidence_not_global_max_cex :
    ((detect exFewFrames).shouldAlert = true ∧ maxConfAll exFewFrames = 9 / 10 ∧
      (detect exFewFrames).confidence = 50 ∧
      (detect exFewFrames).confidence ≠ 100 * maxConfAll exFewFrames) ∧
    ((detect exMovingCar).shouldAlert = false ∧ allObjs exMovingCar ≠ [] ∧
      (detect exMovingCar).confidence = 0 ∧
      (detect exMovingCar).confidence ≠ 100 * maxConfAll exMovingCar) := by decide

/-- C1 amended: in every Decision of the behavior-analysis path (at least 3
frames) with shouldAlert true, the confidence is the global maximum
confidence of all filtered detections times 100; in the fewer-than-3-frames
fallback with detections present it is the last frame's first detection's
confidence times 100; and in a faultless at-least-3-frame Decision with
objects found but shouldAlert false it is 0. -/
theorem confidence_by_branch (p : DetectionRequest) :
    (3 ≤ p.frames.length → (detect p).shouldAlert = true →
      (detect p).confidence = maxConfAll p * 100) ∧
    (¬ p.frames.length = 0 → p.frames.length < 3 →
      ∀ d ds, lastFiltered p = d :: ds → (detect p).confidence = d.conf * 100) ∧
    (3 ≤ p.frames.length → ¬ allObjs p = [] → ¬ detectCore p = none →
      (detect p).shouldAlert = false → (detect p).confidence = 0) := by
  refine ⟨?_, ?_, ?_⟩
  · intro h3 halert
    by_cases he : allObjs p = []
    · have hd := detect_eq_core p _ (detectCore_noObjs p h3 he)
      rw [hd] at halert
      exact absurd halert (by decide)
    · cases hch : chainResults p with
      | none =>
        have hd := detect_of_none p (detectCore_err p h3 he hch)
        rw [hd] at halert
        exact absurd halert (by decide)
      | some pr =>
        obtain ⟨al, ts⟩ := pr
        have hd := detect_eq_core p _ (detectCore_main p al ts h3 he hch)
        by_cases hal : al = []
        · cases hp : hasPerson p with
          | true => rw [hd]; simp [hal, hp]
          | false =>
            rw [hd] at halert
            simp [hal, hp] at halert
        · rw [hd]
          simp [hal]
  · intro h0 hlt d ds hlast
    have hd := detect_eq_core p _ (detectCore_few p h0 hlt)
    rw [hlast] at hd
    rw [hd]
  · intro h3 hne hcore halert
    cases hch : chainResults p with
    | none => exact absurd (detectCore_err p h3 hne hch) hcore
    | some pr =>
      obtain ⟨al, ts⟩ := pr
      have hd := detect_eq_core p _ (detectCore_main p al ts h3 hne hch)
      by_cases hal : al = []
      · cases hp : hasPerson p with
        | true =>
          rw [hd] at halert
          simp [hal, hp] at halert
        | false => rw [hd]; simp [hal, hp]
      · rw [hd] at halert
        simp [hal] at halert

/-- Witness for C1's amended statement: a 3-frame stationary-person request
alerts with confidence equal to the global maximum times 100. -/
theorem confidence_by_branch_witness :
    3 ≤ exStationary.frames.length ∧ (detect exStationary).shouldAlert = true ∧
    (detect exStationary).confidence = maxConfAll exStationary * 100 :=
  ⟨by decide, by decide, (confidence_by_branch exStationary).1 (by decide) (by decide)⟩

/-- C3 counterexample: a 3-frame request with detections present and no
alert reasons, where a person appears only in frame 1: the Decision takes
the person-unclear branch but its detectedObjects is not the set of classes
of all filtered detections (the person class is missing, because the code
collects classes only from frame-0 anchors). -/
theorem detected_types_not_all_frames_cex :
    3 ≤ exMixed.frames.length ∧ allObjs exMixed ≠ [] ∧
    chainResults exMixed = some ([], insert "car" ∅) ∧
    (detect exMixed).shouldAlert = true ∧
    (detect exMixed).description = Descr.personUnclear ∧
    (detect exMixed).confidence = maxConfAll exMixed * 100 ∧
    (detect exMixed).detectedObjects ≠ classSet (allObjs exMixed) := by decide

/-- C3 amended: for every request with at least 3 frames, filtered
detections present, and no alert reasons from the rule evaluator, the
Decision's detectedClasses is the set of distinct classes of the frame-0
(anchor) filtered detections; with a Person anywhere among all filtered
detections the Decision alerts with the person-unclear reason and
confidence equal to the global maximum confidence times 100, otherwise it
does not alert, with the vehicles-moving reason and confidence 0. -/
theorem no_alerts_decision (p : DetectionRequest) (ts : Finset String)
    (h3 : 3 ≤ p.frames.length) (hne : ¬ allObjs p = [])
    (hch : chainResults p = some ([], ts)) :
    ts = classSet (frameAt p 0) ∧
    detect p = (if hasPerson p then
        ⟨true, Descr.personUnclear, maxConfAll p * 100, ts⟩
      else ⟨false, Descr.vehiclesMoving, 0, ts⟩) := by
  have hts : ts = classSet (frameAt p 0) :=
    processAnchors_classes p.person_iou_threshold p.vehicle_iou_threshold
      p.ignore_moving_persons (frameAt p 1) (frameAt p 2) (frameAt p 0) [] ts hch
  have hd := detect_eq_core p _ (detectCore_main p [] ts h3 hne hch)
  refine ⟨hts, ?_⟩
  rw [hd, if_pos rfl]

/-- Witness for C3's amended statement at the mixed request. -/
theorem no_alerts_decision_witness :
    insert "car" ∅ = classSet (frameAt exMixed 0) ∧
    detect exMixed =
      ⟨true, Descr.personUnclear, maxConfAll exMixed * 100, insert "car" ∅⟩ := by
  have h := no_alerts_decision exMixed (insert "car" ∅) (by decide) (by decide) (by decide)
  exact ⟨h.1, h.2.trans (by decide)⟩

end StreamGuard
